import Mathlib

/-
Verification of the `directus-to-data` utility (`directusToData.js`, v0.7.2).

The development shallowly embeds the script's pure decision logic:
  * JavaScript-style loosely typed option values (`JSVal`) and the
    `_returnFirstBooleanOrNumber` prettify resolver,
  * JSON-ish data values (`DVal`) and the `collectionName` normalization,
  * first-occurrence string replacement (`String.prototype.replace` with a
    string pattern) used for the output-path templates,
  * `String.prototype.split(":")` used for field-selector suffixes,
  * the asset-reference walk `findImagesInDirectusData`,
  * the schema-diff filter over `KEYS_TO_FILTER`,
  * the settings-resolution `||` chains,
  * the externally observable effect trace of one invocation (`runEffects`),
  * the retrying request wrapper `directusRequest` as a function of the
    sequence of remote outcomes.
-/

set_option autoImplicit false

namespace DirectusToData

/-! ## JavaScript option values and the prettify resolver -/

/-- A JavaScript value as far as the prettify resolution logic can observe it:
`null`, `undefined`, booleans, finite numbers, `NaN` and strings. -/
inductive JSVal where
  | null
  | undefined
  | bool (b : Bool)
  | num (n : Int)
  | nan
  | str (s : String)
  deriving DecidableEq

/-- JavaScript truthiness for `JSVal`: `null`, `undefined`, `false`, `0`,
`NaN` and `""` are falsy, everything else is truthy. -/
def truthyJS : JSVal → Bool
  | JSVal.null => false
  | JSVal.undefined => false
  | JSVal.bool b => b
  | JSVal.num n => n != 0
  | JSVal.nan => false
  | JSVal.str s => s != ""

/-- Numeric value of a decimal digit list (most significant first). -/
def digitsToNat (ds : List Char) : Nat :=
  ds.foldl (fun acc c => acc * 10 + (c.toNat - 48)) 0

/-- JavaScript `parseInt(s)` on a string: skip leading spaces, read an
optional sign and then the longest decimal-digit run; `NaN` when there is
no digit. -/
def jsParseInt (s : String) : JSVal :=
  let t := s.data.dropWhile (fun c => c = ' ')
  let signed : Int × List Char :=
    match t with
    | '-' :: r => (-1, r)
    | '+' :: r => (1, r)
    | r => (1, r)
  let digits := signed.2.takeWhile Char.isDigit
  if digits = [] then JSVal.nan
  else JSVal.num (signed.1 * (digitsToNat digits : Int))

/-- `_returnFirstBooleanOrNumber(...args)` (directusToData.js lines 13-42):
walk the arguments, skipping `null`/`undefined`; return the first boolean or
number as-is (including `NaN`, whose constructor is `Number`); for a string,
return `true`/`false` for the literals `"true"`/`"false"` and otherwise the
`parseInt` of the string (`parseInt` never throws, so the `break` after the
`try` block is unreachable).  Falling off the end returns `undefined`. -/
def _returnFirstBooleanOrNumber : List JSVal → JSVal
  | [] => JSVal.undefined
  | a :: rest =>
    match a with
    | JSVal.null => _returnFirstBooleanOrNumber rest
    | JSVal.undefined => _returnFirstBooleanOrNumber rest
    | JSVal.bool b => JSVal.bool b
    | JSVal.num n => JSVal.num n
    | JSVal.nan => JSVal.nan
    | JSVal.str s =>
      if s = "true" then JSVal.bool true
      else if s = "false" then JSVal.bool false
      else jsParseInt s

/-- The final prettify mapping (directusToData.js lines 224-230): a falsy
value becomes `0`, a truthy boolean becomes `4`, any other truthy value is
kept verbatim. -/
def prettifyFinal (v : JSVal) : JSVal :=
  if truthyJS v then
    match v with
    | JSVal.bool b => JSVal.num (if b then 4 else 0)
    | x => x
  else JSVal.num 0

/-- Full prettify resolution: the explicit sentinel `-1` is first turned into
`null` (lines 182-184), then `_returnFirstBooleanOrNumber(prettify,
config["prettify"], env.PRETTIFY, true)` picks a value (line 198), and the
final mapping of lines 224-230 produces the width. -/
def resolvePrettify (prettify configV envV : JSVal) : JSVal :=
  let p := if prettify = JSVal.num (-1) then JSVal.null else prettify
  prettifyFinal (_returnFirstBooleanOrNumber [p, configV, envV, JSVal.bool true])

/-! ## JSON-ish data values and collection-name normalization -/

/-- A JSON-ish JavaScript value, as stored in fetched collection data and in
the `collectionName` setting. -/
inductive DVal where
  | null
  | undefined
  | bool (b : Bool)
  | num (n : Int)
  | str (s : String)
  | arr (elems : List DVal)
  | obj (fields : List (String × DVal))

/-- JavaScript truthiness for `DVal`; note that every array and object is
truthy, even when empty. -/
def truthyD : DVal → Bool
  | DVal.null => false
  | DVal.undefined => false
  | DVal.bool b => b
  | DVal.num n => n != 0
  | DVal.str s => s != ""
  | DVal.arr _ => true
  | DVal.obj _ => true

/-- `collectionName` normalization (directusToData.js lines 209-221).  An
array input is used as the candidate list.  For any other input the code
tries `const jsonParsedCollectionName = JSON.parse(jsonParsedCollectionName)`:
the initializer reads the very `const` being declared, which always throws a
`ReferenceError` (temporal dead zone) that the empty `catch` swallows, so the
candidate list stays empty and the whole raw input becomes the single
collection name. -/
def normalizeCollectionName (collectionName : DVal) : List DVal :=
  let collectionNameArray : List DVal :=
    match collectionName with
    | DVal.arr xs => xs
    | _ => []
  if collectionNameArray.length > 0 then collectionNameArray else [collectionName]

/-! ## String helpers: JS `replace` (string pattern) and `split` -/

/-- `String.prototype.replace` with a string pattern, on character lists:
replace only the first occurrence of `pat`, keep everything else. -/
def replaceFirstL (pat rep : List Char) : List Char → List Char
  | [] => if pat = [] then rep else []
  | c :: rest =>
    if pat.isPrefixOf (c :: rest) then rep ++ (c :: rest).drop pat.length
    else c :: replaceFirstL pat rep rest

/-- Substring test on character lists (JS `String.prototype.includes`). -/
def containsSubL (pat : List Char) : List Char → Bool
  | [] => pat.isEmpty
  | c :: rest => pat.isPrefixOf (c :: rest) || containsSubL pat rest

/-- `s.replace(pat, rep)` for strings (first occurrence only). -/
def jsReplace (s pat rep : String) : String :=
  String.mk (replaceFirstL pat.data rep.data s.data)

/-- `s.includes(pat)` for strings. -/
def containsSub (pat s : String) : Bool :=
  containsSubL pat.data s.data

/-- `String.prototype.split(sep)` for a one-character separator, on
character lists; always returns at least one (possibly empty) piece. -/
def jsSplitL (sep : Char) : List Char → List (List Char)
  | [] => [[]]
  | c :: rest =>
    match jsSplitL sep rest with
    | [] => [[]]
    | h :: t => if c = sep then [] :: h :: t else (c :: h) :: t

/-- The collection-output template placeholder. -/
def collectionNamePlaceholder : String := "\x7b\x7bcollectionName\x7d\x7d"

/-- The assets-output template placeholder. -/
def filenamePlaceholder : String := "\x7b\x7bfilename\x7d\x7d"

/-- The sentinel output path that disables writing to disk. -/
def NO_WRITE : String := "NO_WRITE"

/-- `collectionOutput.replace("{{collectionName}}", collectionName)`
(directusToData.js line 322). -/
def finalCollectionOutput (collectionOutput collectionName : String) : String :=
  jsReplace collectionOutput collectionNamePlaceholder collectionName

/-- `assetsOutput.replace("{{filename}}", filename)`
(directusToData.js line 330). -/
def assetFilename (assetsOutput filename : String) : String :=
  jsReplace assetsOutput filenamePlaceholder filename

/-- Identifier part of a raw collection name (directusToData.js lines
313-316): when the raw name contains `:`, the element `0` of
`collectionName.split(":")`, otherwise the raw name itself. -/
def collectionIdentOf (raw : String) : String :=
  if raw.data.contains ':' then String.mk ((jsSplitL ':' raw.data).headI) else raw

/-- Field-selector part of a raw collection name: when the raw name contains
`:`, the element `1` of `collectionName.split(":")` (so the text between the
first and the second colon), otherwise absent. -/
def collectionFieldsOf (raw : String) : Option String :=
  if raw.data.contains ':' then ((jsSplitL ':' raw.data).get? 1).map String.mk else none

/-! ## Asset-reference discovery -/

/-- One discovered asset reference:
`{id: object.id, filename: object.filename_download}`. -/
structure FoundImage where
  id : DVal
  filename : DVal

/-- `Object.keys(object).includes(k)` for an object literal. -/
def hasKey (fields : List (String × DVal)) (k : String) : Bool :=
  fields.any (fun kv => kv.1 = k)

/-- Property access `object[k]`; `undefined` when the key is absent. -/
def lookupField (fields : List (String × DVal)) (k : String) : DVal
:=
  match fields.find? (fun kv => kv.1 = k) with
  | some kv => kv.2
  | none => DVal.undefined

/-- The self-check of `findImagesInDirectusData` (lines 45-49): an object
whose keys include both `id` and `filename_download` contributes one asset
reference. -/
def selfImage (fields : List (String × DVal)) : List FoundImage :=
  if hasKey fields "id" && hasKey fields "filename_download" then
    [{ id := lookupField fields "id", filename := lookupField fields "filename_download" }]
  else []

/-- The `for (const [key, value] of Object.entries(object))` loop of
`findImagesInDirectusData` over an object's fields: recurse into each value
whose constructor is `Object` (so never into arrays or scalars), in field
order, collecting the self-check result before the child results. -/
def findImagesFields : List (String × DVal) → List FoundImage
  | [] => []
  | (_, v) :: rest =>
    (match v with
     | DVal.obj f2 => selfImage f2 ++ findImagesFields f2
     | _ => []) ++ findImagesFields rest

/-- The same entries loop when the walked value is an array: `Object.entries`
yields the elements, and only elements whose constructor is `Object` are
recursed into. -/
def findImagesElems : List DVal → List FoundImage
  | [] => []
  | v :: rest =>
    (match v with
     | DVal.obj f2 => selfImage f2 ++ findImagesFields f2
     | _ => []) ++ findImagesElems rest

/-- `findImagesInDirectusData(object)` (directusToData.js lines 44-56) on the
value it is first called with: the self-check applies to objects (an array's
keys are its indices, so it never matches), then the entries are walked. -/
def findImagesInDirectusData : DVal → List FoundImage
  | DVal.obj fields => selfImage fields ++ findImagesFields fields
  | DVal.arr xs => findImagesElems xs
  | _ => []

/-! ## Schema-diff filtering -/

/-- One entry of a schema snapshot or schema-diff category; the filter only
ever looks at its `collection` property. -/
structure DiffEntry where
  collection : String
  deriving DecidableEq

/-- The three categories named by `KEYS_TO_FILTER = ["collections",
"fields", "relations"]`, as carried by both a schema snapshot and a schema
diff. -/
structure SchemaDiffData where
  collections : List DiffEntry
  fields : List DiffEntry
  relations : List DiffEntry
  deriving DecidableEq

/-- `entry => collectionNameArray.includes(entry.collection)`: JS `includes`
uses strict equality, so an entry matches exactly the elements of the
requested-name array that are the *string* `entry.collection`. -/
def requestedContains (collectionNameArray : List DVal) (c : String) : Bool :=
  collectionNameArray.any (fun n =>
    match n with
    | DVal.str s => s = c
    | _ => false)

/-- The per-category filter applied to schema snapshots (lines 304-306) and
schema diffs (lines 246-248): each of the three categories keeps only the
entries whose `collection` is in the requested-name array. -/
def filterSchemaCategories (collectionNameArray : List DVal) (d : SchemaDiffData) :
    SchemaDiffData where
  collections := d.collections.filter (fun e => requestedContains collectionNameArray e.collection)
  fields := d.fields.filter (fun e => requestedContains collectionNameArray e.collection)
  relations := d.relations.filter (fun e => requestedContains collectionNameArray e.collection)

/-! ## Settings resolution -/

/-- JavaScript `String()` coercion, as used when a discovered asset's
`filename_download` is spliced into the assets-output template. -/
def jsToStr : DVal → String
  | DVal.str s => s
  | DVal.num n => toString n
  | DVal.bool b => if b then "true" else "false"
  | DVal.null => "null"
  | DVal.undefined => "undefined"
  | DVal.arr _ => ""
  | DVal.obj _ => "[object Object]"

/-- The explicit call parameters of `module.exports`, with their JavaScript
default values (directusToData.js lines 163-177). -/
structure CallParams where
  cmsUrl : String := ""
  staticToken : String := ""
  collectionName : DVal := DVal.str ""
  collectionOutput : String := ""
  assetsOutput : String := ""
  configFilename : String := ""
  encoding : String := ""
  prettify : JSVal := JSVal.num (-1)
  backupSchema : String := ""
  restoreSchema : String := ""
  applySchema : Bool := false
  forceSchema : Bool := false

/-- The parsed config file (`.directus.json`); `none` means the key is
missing from the JSON object. -/
structure ConfigFile where
  cmsUrl : Option String := none
  staticToken : Option String := none
  collectionName : Option DVal := none
  collectionOutput : Option String := none
  assetsOutput : Option String := none
  encoding : Option String := none
  prettify : Option JSVal := none
  backupSchema : Option String := none
  restoreSchema : Option String := none
  applySchema : Option Bool := none
  forceSchema : Option Bool := none

/-- The process environment; `none` means the variable is not set. -/
structure EnvVars where
  CMS_URL : Option String := none
  STATIC_TOKEN : Option String := none
  COLLECTION_NAME : Option String := none
  OUTPUT_FILENAME : Option String := none
  ASSETS_OUTPUT : Option String := none
  ENCODING : Option String := none
  CONFIG_FILENAME : Option String := none
  PRETTIFY : Option String := none
  BACKUP_SCHEMA : Option String := none
  RESTORE_SCHEMA : Option String := none
  APPLY_SCHEMA : Option String := none
  FORCE_SCHEMA : Option String := none

/-- Keep an optional string only when it is set and truthy (non-empty). -/
def optTruthy : Option String → Option String
  | some s => if s = "" then none else some s
  | none => none

/-- The `x || config[..] || env.X` chain for a string-valued setting with no
built-in default: the result is `none` exactly when every source is unset or
falsy. -/
def firstSet (explicitV : String) (configV envV : Option String) : Option String :=
  if explicitV = "" then (optTruthy configV).orElse (fun _ => optTruthy envV)
  else some explicitV

/-- The `x || config[..] || env.X || dflt` chain for a string-valued setting
with a built-in default. -/
def firstSetD (explicitV : String) (configV envV : Option String) (dflt : String) : String :=
  (firstSet explicitV configV envV).getD dflt

/-- `a || b` on JSON-ish values. -/
def jsOrD (a b : DVal) : DVal :=
  if truthyD a then a else b

/-- An environment variable as a JSON-ish value (`undefined` when unset). -/
def envD : Option String → DVal
  | some s => DVal.str s
  | none => DVal.undefined

/-- An environment variable as a `JSVal` (`undefined` when unset). -/
def envJS : Option String → JSVal
  | some s => JSVal.str s
  | none => JSVal.undefined

/-- Truthiness of an optional config boolean (`undefined` when missing). -/
def truthyOptBool : Option Bool → Bool
  | some b => b
  | none => false

/-- Truthiness of an optional environment string (`undefined` when unset,
and note that any non-empty string, including `"false"`, is truthy). -/
def truthyOptStr : Option String → Bool
  | some s => s != ""
  | none => false

/-- The resolved settings record, immutable after resolution. -/
structure ResolvedSettings where
  cmsUrl : Option String := none
  staticToken : Option String := none
  collectionName : DVal := DVal.undefined
  collectionOutput : String := "\x7b\x7bcollectionName\x7d\x7d.json"
  assetsOutput : String := "\x7b\x7bfilename\x7d\x7d"
  configFilename : String := ".directus.json"
  encoding : String := "utf-8"
  prettify : JSVal := JSVal.num 4
  backupSchema : Option String := none
  restoreSchema : Option String := none
  applySchema : Bool := false
  forceSchema : Bool := false

/-- Settings resolution (directusToData.js lines 186-202): every field is
resolved independently as explicit parameter `||` config value `||`
environment variable `||` built-in default.  `configFilename` has no
config-file source (line 187), `backupSchema`/`restoreSchema` default to
`null`, and `prettify` goes through `_returnFirstBooleanOrNumber`. -/
def resolveSettings (p : CallParams) (config : ConfigFile) (env : EnvVars) :
    ResolvedSettings where
  cmsUrl := firstSet p.cmsUrl config.cmsUrl env.CMS_URL
  staticToken := firstSet p.staticToken config.staticToken env.STATIC_TOKEN
  collectionName :=
    jsOrD p.collectionName
      (jsOrD (config.collectionName.getD DVal.undefined) (envD env.COLLECTION_NAME))
  collectionOutput :=
    firstSetD p.collectionOutput config.collectionOutput env.OUTPUT_FILENAME
      "\x7b\x7bcollectionName\x7d\x7d.json"
  assetsOutput :=
    firstSetD p.assetsOutput config.assetsOutput env.ASSETS_OUTPUT "\x7b\x7bfilename\x7d\x7d"
  configFilename := firstSetD p.configFilename none env.CONFIG_FILENAME ".directus.json"
  encoding := firstSetD p.encoding config.encoding env.ENCODING "utf-8"
  prettify :=
    resolvePrettify p.prettify (config.prettify.getD JSVal.undefined) (envJS env.PRETTIFY)
  backupSchema := firstSet p.backupSchema config.backupSchema env.BACKUP_SCHEMA
  restoreSchema := firstSet p.restoreSchema config.restoreSchema env.RESTORE_SCHEMA
  applySchema := p.applySchema || truthyOptBool config.applySchema || truthyOptStr env.APPLY_SCHEMA
  forceSchema := p.forceSchema || truthyOptBool config.forceSchema || truthyOptStr env.FORCE_SCHEMA

/-! ## The effect trace of one invocation -/

/-- The remote CMS and its data, seen as oracles: per-collection item data,
the computed schema diff and the schema snapshot. -/
structure Cms where
  items : String → DVal := fun _ => DVal.arr []
  diffData : SchemaDiffData := ⟨[], [], []⟩
  snapshotData : SchemaDiffData := ⟨[], [], []⟩

/-- The externally observable steps of one invocation. -/
inductive Effect where
  | errorMissingCollection
  | schemaDiffRequest (force : Bool)
  | schemaApplyRequest (diff : SchemaDiffData)
  | schemaSnapshotRequest
  | schemaBackupWrite (path : String) (content : SchemaDiffData) (encoding : String)
  | readItemsRequest (collection : String) (fieldsOpt : Option String)
  | collectionWrite (path : String) (encoding : String)
  | assetRequest (id : DVal)
  | assetWrite (path : String) (encoding : String)
  | callbackInvoked (data : DVal)

/-- The body of the `collectionNameArray.forEach` loop (directusToData.js
lines 311-343) for one raw name: split off a field selector, request the
items, write the JSON file (with the configured encoding) unless the
rendered path is `NO_WRITE`, then discover asset references and request and
write each asset (always with encoding `utf-8`), and finally invoke the
callback.  A non-string name would throw before producing any effect. -/
def perCollection (s : ResolvedSettings) (items : String → DVal) : DVal → List Effect
  | DVal.str raw =>
    let ident := collectionIdentOf raw
    let data := items ident
    Effect.readItemsRequest ident (collectionFieldsOf raw) ::
      ((if s.collectionOutput ≠ NO_WRITE then
          [Effect.collectionWrite (finalCollectionOutput s.collectionOutput ident) s.encoding]
        else []) ++
       (if s.assetsOutput ≠ NO_WRITE then
          (findImagesInDirectusData data).flatMap (fun im =>
            [Effect.assetRequest im.id,
             Effect.assetWrite (assetFilename s.assetsOutput (jsToStr im.filename)) "utf-8"])
        else []) ++
       [Effect.callbackInvoked data])
  | _ => []

/-- The effect trace of one invocation after settings resolution
(directusToData.js lines 204-343): abort with a reported error when no
collection name resolved; otherwise normalize the names; when
`restoreSchema` is set, request the schema diff, filter it to the requested
names and, only when `applySchema` is also set, submit the filtered diff —
then return without fetching anything; otherwise, when `backupSchema` is
set, snapshot the schema and write the filtered snapshot (always `utf-8`),
and in every non-restore case run the per-collection fetch loop. -/
def runEffects (s : ResolvedSettings) (cms : Cms) : List Effect :=
  if truthyD s.collectionName = false then [Effect.errorMissingCollection]
  else
    let collectionNameArray := normalizeCollectionName s.collectionName
    match s.restoreSchema with
    | some _ =>
      Effect.schemaDiffRequest s.forceSchema ::
        (if s.applySchema then
          [Effect.schemaApplyRequest (filterSchemaCategories collectionNameArray cms.diffData)]
        else [])
    | none =>
      (match s.backupSchema with
       | some path =>
         [Effect.schemaSnapshotRequest,
          Effect.schemaBackupWrite path
            (filterSchemaCategories collectionNameArray cms.snapshotData) "utf-8"]
       | none => []) ++
      collectionNameArray.flatMap (perCollection s cms.items)

/-! ## The retrying request wrapper -/

/-- Outcome of one underlying `directus.request` call. -/
inductive ReqOutcome (α ε : Type) where
  | ok (v : α)
  | fail (e : ε)

/-- How the promise returned by `directusRequest` eventually settles;
`pending` means it never settles. -/
inductive Settlement (α ε : Type) where
  | resolved (v : α)
  | rejected (e : ε)
  | rejectedTryAgain
  | pending
  deriving DecidableEq

/-- Observable summary of one `directusRequest` call tree: the settlement of
the promise handed to the caller, the number of underlying `directus.request`
calls issued, and the number of `Trying again...` notices logged. -/
structure ReqRun (α ε : Type) where
  settlement : Settlement α ε
  attempts : Nat
  retryNotices : Nat
  deriving DecidableEq

/-- A recursive `directusRequest` call with `firstAttempt = false`
(directusToData.js lines 59-100), given the outcome of its single underlying
call: a rejection is passed to `reject` (line 70); a value that is falsy
while `expectValue` is set logs `Already tried again` and throws
`Error("tryAgain set to true")`, which the surrounding `catch` turns into a
rejection (lines 79-80, 93); otherwise the value resolves. -/
def retryAttempt {α ε : Type} (expectValue : Bool) (isEmpty : α → Bool) :
    ReqOutcome α ε → Settlement α ε
  | ReqOutcome.ok v =>
    if expectValue && isEmpty v then Settlement.rejectedTryAgain else Settlement.resolved v
  | ReqOutcome.fail e => Settlement.rejected e

/-- A top-level `directusRequest` call (`firstAttempt = true`), given the
oracle of successive underlying-call outcomes (`oracle 0` is the first
attempt, `oracle 1` the retry, ...).

* First attempt succeeds with a truthy-enough value: resolve it (one call).
* First attempt succeeds but the value is falsy while `expectValue` is set:
  log one retry notice and `resolve(directusRequest(..., false))`, adopting
  the retry's settlement (two calls, lines 73-82).
* First attempt rejects: the `.catch` handler logs one retry notice and
  awaits the retry (lines 63-72).
  - If the retry resolves, its value resolves the outer promise; the outer
    body then continues with `value === undefined`, so when `expectValue` is
    set it logs a second retry notice and fires one more (discarded) retry
    (three calls), otherwise it stops at two calls.
  - If the retry rejects, the `await` inside the handler throws, the outer
    `try/catch` catches it (line 87), logs a second retry notice, and
    `return directusRequest(..., false)` fires a third underlying call whose
    promise is discarded (line 91) — the outer promise is never resolved nor
    rejected and stays pending forever. -/
def directusRequest {α ε : Type} (expectValue : Bool) (isEmpty : α → Bool)
    (oracle : Nat → ReqOutcome α ε) : ReqRun α ε :=
  match oracle 0 with
  | ReqOutcome.ok v =>
    if expectValue && isEmpty v then
      { settlement := retryAttempt expectValue isEmpty (oracle 1)
        attempts := 2
        retryNotices := 1 }
    else
      { settlement := Settlement.resolved v, attempts := 1, retryNotices := 0 }
  | ReqOutcome.fail _ =>
    match retryAttempt expectValue isEmpty (oracle 1) with
    | Settlement.resolved v =>
      if expectValue then
        { settlement := Settlement.resolved v, attempts := 3, retryNotices := 2 }
      else
        { settlement := Settlement.resolved v, attempts := 2, retryNotices := 1 }
    | _ =>
      { settlement := Settlement.pending, attempts := 3, retryNotices := 2 }

end DirectusToData

namespace DirectusToData

/-! ## First theorems: C1 and C6 -/

/-- C1: the spec and the script's own documentation promise that a
JSON-encoded array string such as `'["Foo","Bar"]'` is parsed into the array
of names, but the parse branch dereferences its own `const` binding and
always throws, so the raw string becomes a single collection name. -/
theorem c1_json_array_string_not_parsed :
    normalizeCollectionName (DVal.str "[\"Foo\",\"Bar\"]")
        = [DVal.str "[\"Foo\",\"Bar\"]"]
      ∧ normalizeCollectionName (DVal.str "[\"Foo\",\"Bar\"]")
        ≠ [DVal.str "Foo", DVal.str "Bar"] := by
  refine ⟨rfl, fun h => ?_⟩
  simpa [normalizeCollectionName] using congrArg List.length h

/-- C6: a truthy non-numeric string such as `"abc"` resolves to width `0`,
not the documented default width `4`: `parseInt("abc")` is `NaN`, which is
falsy, so the final mapping turns it into `0`. -/
theorem c6_truthy_string_resolves_to_zero :
    resolvePrettify (JSVal.str "abc") JSVal.undefined JSVal.undefined = JSVal.num 0
      ∧ resolvePrettify (JSVal.str "abc") JSVal.undefined JSVal.undefined ≠ JSVal.num 4 := by
  exact ⟨rfl, by decide⟩

/-! ## Properties of first-occurrence replacement (C2) -/

/-- When the pattern does not occur in the subject, `replace` is the
identity. -/
theorem replaceFirstL_eq_self (pat rep : List Char) :
    ∀ s : List Char, containsSubL pat s = false → replaceFirstL pat rep s = s := by
  intro s
  induction s with
  | nil =>
    intro h
    have hne : pat ≠ [] := by
      intro hp
      subst hp
      simp [containsSubL] at h
    simp [replaceFirstL, hne]
  | cons c rest ih =>
    intro h
    simp only [containsSubL, Bool.or_eq_false_iff] at h
    simp [replaceFirstL, h.1, ih h.2]

/-- When the pattern occurs in the subject, `replace` rewrites exactly the
first occurrence: the subject splits as `p ++ pat ++ q` with no occurrence
of `pat` starting inside `p`, and the result is `p ++ rep ++ q`. -/
theorem replaceFirstL_first_occurrence (pat rep : List Char) :
    ∀ s : List Char, containsSubL pat s = true →
      ∃ p q, s = p ++ pat ++ q ∧ replaceFirstL pat rep s = p ++ rep ++ q ∧
        ∀ j, j < p.length → pat.isPrefixOf (s.drop j) = false := by
  intro s
  induction s with
  | nil =>
    intro h
    simp only [containsSubL, List.isEmpty_iff] at h
    exact ⟨[], [], by simp [h], by simp [replaceFirstL, h], by simp⟩
  | cons c rest ih =>
    intro h
    by_cases h1 : pat.isPrefixOf (c :: rest) = true
    · obtain ⟨q, hq⟩ := List.isPrefixOf_iff_prefix.mp h1
      refine ⟨[], q, by simp [← hq], ?_, by simp⟩
      rw [replaceFirstL, if_pos h1, ← hq, List.drop_left]
      simp
    · have h2 : containsSubL pat rest = true := by
        simp only [containsSubL, h1, Bool.false_or] at h
        exact h
      obtain ⟨p, q, hs, hr, hfirst⟩ := ih h2
      refine ⟨c :: p, q, by simp [hs], ?_, ?_⟩
      · rw [replaceFirstL, if_neg (by simp [h1]), hr]
        simp
      · intro j hj
        cases j with
        | zero =>
          simpa using Bool.eq_false_iff.mpr h1
        | succ j' =>
          simpa using hfirst j' (by simpa using hj)

/-- C2 counterexample: with a template containing the collection-name
placeholder twice, rendering replaces only the first occurrence — the second
occurrence of the placeholder survives in the rendered path, so rendering
does not substitute every occurrence. -/
theorem c2_counterexample :
    finalCollectionOutput
        "\x7b\x7bcollectionName\x7d\x7d/\x7b\x7bcollectionName\x7d\x7d.json" "Foo"
      = "Foo/\x7b\x7bcollectionName\x7d\x7d.json"
    ∧ containsSub collectionNamePlaceholder
        (finalCollectionOutput
          "\x7b\x7bcollectionName\x7d\x7d/\x7b\x7bcollectionName\x7d\x7d.json" "Foo") = true := by
  exact ⟨by decide, by decide⟩

/-- C2 (amended): output-path rendering substitutes only the first
occurrence of the collection-name placeholder in the output-path template
(any later occurrences are left as-is), and likewise the asset-path
rendering substitutes only the first occurrence of the filename
placeholder; a template without the placeholder is returned unchanged. -/
theorem c2_placeholder_first_occurrence_only (tmpl ident fname : String) :
    (containsSub collectionNamePlaceholder tmpl = false →
        finalCollectionOutput tmpl ident = tmpl)
  ∧ (containsSub collectionNamePlaceholder tmpl = true →
      ∃ p q, tmpl.data = p ++ collectionNamePlaceholder.data ++ q
        ∧ (finalCollectionOutput tmpl ident).data = p ++ ident.data ++ q
        ∧ ∀ j, j < p.length →
            collectionNamePlaceholder.data.isPrefixOf (tmpl.data.drop j) = false)
  ∧ (containsSub filenamePlaceholder tmpl = false → assetFilename tmpl fname = tmpl)
  ∧ (containsSub filenamePlaceholder tmpl = true →
      ∃ p q, tmpl.data = p ++ filenamePlaceholder.data ++ q
        ∧ (assetFilename tmpl fname).data = p ++ fname.data ++ q
        ∧ ∀ j, j < p.length →
            filenamePlaceholder.data.isPrefixOf (tmpl.data.drop j) = false) := by
  refine ⟨fun h => ?_, fun h => ?_, fun h => ?_, fun h => ?_⟩
  · show String.mk _ = tmpl
    rw [replaceFirstL_eq_self _ _ _ h]
  · exact replaceFirstL_first_occurrence _ ident.data tmpl.data h
  · show String.mk _ = tmpl
    rw [replaceFirstL_eq_self _ _ _ h]
  · exact replaceFirstL_first_occurrence _ fname.data tmpl.data h

/-- Witness for the amended C2 theorem at concrete templates without a
placeholder. -/
theorem c2_placeholder_first_occurrence_only_witness :
    finalCollectionOutput "out.json" "Foo" = "out.json"
    ∧ assetFilename "assets/img.png" "f.png" = "assets/img.png" := by
  exact ⟨(c2_placeholder_first_occurrence_only "out.json" "Foo" "f.png").1 (by decide),
         (c2_placeholder_first_occurrence_only "assets/img.png" "Foo" "f.png").2.2.1 (by decide)⟩

/-! ## Properties of the field-selector split (C5) -/

/-- `split` always produces at least one piece. -/
theorem jsSplitL_ne_nil (sep : Char) : ∀ s : List Char, jsSplitL sep s ≠ [] := by
  intro s
  cases s with
  | nil => simp [jsSplitL]
  | cons c rest =>
    cases h : jsSplitL sep rest with
    | nil => simp [jsSplitL, h]
    | cons piece t =>
      by_cases hc : c = sep <;> simp [jsSplitL, h, hc]

/-- `split` on a subject without the separator yields the whole subject. -/
theorem jsSplitL_of_not_mem (sep : Char) :
    ∀ s : List Char, sep ∉ s → jsSplitL sep s = [s] := by
  intro s
  induction s with
  | nil => intro _; rfl
  | cons c rest ih =>
    intro h
    have hc : ¬c = sep := fun he => h (he ▸ List.mem_cons_self c rest)
    have hrest : sep ∉ rest := fun hm => h (List.mem_cons_of_mem c hm)
    simp [jsSplitL, ih hrest, hc]

/-- `split` at the first separator: the part before it becomes the first
piece. -/
theorem jsSplitL_append_sep (sep : Char) :
    ∀ a b : List Char, sep ∉ a → jsSplitL sep (a ++ sep :: b) = a :: jsSplitL sep b := by
  intro a
  induction a with
  | nil =>
    intro b _
    cases h : jsSplitL sep b with
    | nil => exact absurd h (jsSplitL_ne_nil sep b)
    | cons piece t => simp [jsSplitL, h]
  | cons c a2 ih =>
    intro b h
    have hc : ¬c = sep := fun he => h (he ▸ List.mem_cons_self c a2)
    have ha2 : sep ∉ a2 := fun hm => h (List.mem_cons_of_mem c hm)
    simp [jsSplitL, ih b ha2, hc]

/-- The character data of `ident ++ ":" ++ sel`. -/
theorem data_append_colon (ident sel : String) :
    (ident ++ ":" ++ sel).data = ident.data ++ ':' :: sel.data := by
  simp [String.data_append]

/-- A raw name `ident:sel` splits off `ident` as the collection identifier
passed to the fetch endpoint. -/
theorem collectionIdentOf_append (ident sel : String) (h1 : ':' ∉ ident.data) :
    collectionIdentOf (ident ++ ":" ++ sel) = ident := by
  have hct : (ident ++ ":" ++ sel).data.contains ':' = true :=
    List.elem_iff.mpr (by rw [data_append_colon]; simp)
  rw [collectionIdentOf, if_pos hct, data_append_colon, jsSplitL_append_sep ':' _ _ h1]
  rfl

/-- A raw name `ident:sel` (no colon in either part) splits off `sel` as the
field selector. -/
theorem collectionFieldsOf_append (ident sel : String)
    (h1 : ':' ∉ ident.data) (h2 : ':' ∉ sel.data) :
    collectionFieldsOf (ident ++ ":" ++ sel) = some sel := by
  have hct : (ident ++ ":" ++ sel).data.contains ':' = true :=
    List.elem_iff.mpr (by rw [data_append_colon]; simp)
  rw [collectionFieldsOf, if_pos hct, data_append_colon,
    jsSplitL_append_sep ':' _ _ h1, jsSplitL_of_not_mem ':' _ h2]
  rfl

/-- C5 counterexample: the requested name `"Foo:id,name"` yields the
collection identifier `"Foo"`, yet schema filtering — which tests membership
of `entry.collection` in the raw requested-name array — drops a diff entry
for collection `"Foo"` (while a request without a selector keeps it).  The
identifier is therefore not what is used for schema filtering. -/
theorem c5_counterexample :
    collectionIdentOf "Foo:id,name" = "Foo"
    ∧ filterSchemaCategories [DVal.str "Foo:id,name"]
        ⟨[⟨"Foo"⟩], [], []⟩ = ⟨[], [], []⟩
    ∧ filterSchemaCategories [DVal.str "Foo"]
        ⟨[⟨"Foo"⟩], [], []⟩ = ⟨[⟨"Foo"⟩], [], []⟩ := by
  exact ⟨by decide, by decide, by decide⟩

/-- C5 (amended): a collection name of the form `ident:sel` (where neither
part itself contains `:`) is split into the identifier `ident` and the
selector `sel`; the fetch request and the rendered output path use `ident`
without the suffix; schema filtering, however, matches diff entries against
the raw name including the selector suffix (which never equals the bare
identifier), for backup and restore alike. -/
theorem c5_identifier_selector_split (ident sel : String) (s : ResolvedSettings)
    (items : String → DVal) (h1 : ':' ∉ ident.data) (h2 : ':' ∉ sel.data) :
    collectionIdentOf (ident ++ ":" ++ sel) = ident
  ∧ collectionFieldsOf (ident ++ ":" ++ sel) = some sel
  ∧ Effect.readItemsRequest ident (some sel)
      ∈ perCollection s items (DVal.str (ident ++ ":" ++ sel))
  ∧ (s.collectionOutput ≠ NO_WRITE →
      Effect.collectionWrite (finalCollectionOutput s.collectionOutput ident) s.encoding
        ∈ perCollection s items (DVal.str (ident ++ ":" ++ sel)))
  ∧ (∀ (d : SchemaDiffData) (e : DiffEntry),
      e ∈ (filterSchemaCategories [DVal.str (ident ++ ":" ++ sel)] d).collections →
        e.collection = ident ++ ":" ++ sel)
  ∧ ident ++ ":" ++ sel ≠ ident := by
  have hident := collectionIdentOf_append ident sel h1
  have hfields := collectionFieldsOf_append ident sel h1 h2
  refine ⟨hident, hfields, ?_, fun hco => ?_, fun d e he => ?_, fun he => ?_⟩
  · simp [perCollection, hident, hfields]
  · simp [perCollection, hident, hco]
  · simp only [filterSchemaCategories, List.mem_filter, requestedContains,
      List.any_cons, List.any_nil, Bool.or_false, decide_eq_true_eq] at he
    exact he.2.symm
  · have hlen := congrArg (fun t : String => t.data.length) he
    simp [data_append_colon] at hlen

/-- Witness for the amended C5 theorem at the concrete name
`"Foo:id,name"`. -/
theorem c5_identifier_selector_split_witness :
    collectionFieldsOf ("Foo" ++ ":" ++ "id,name") = some "id,name"
    ∧ Effect.readItemsRequest "Foo" (some "id,name")
        ∈ perCollection {} (fun _ => DVal.arr []) (DVal.str ("Foo" ++ ":" ++ "id,name")) := by
  have h := c5_identifier_selector_split "Foo" "id,name" {} (fun _ => DVal.arr [])
    (by decide) (by decide)
  exact ⟨h.2.1, h.2.2.1⟩

/-! ## Shape of the effect trace (C3, C4, C9) -/

/-- Case analysis for membership in the per-collection effect list. -/
theorem mem_perCollection_cases (s : ResolvedSettings) (items : String → DVal) (v : DVal)
    (x : Effect) (h : x ∈ perCollection s items v) :
    ∃ raw, v = DVal.str raw ∧
      (x = Effect.readItemsRequest (collectionIdentOf raw) (collectionFieldsOf raw)
       ∨ (s.collectionOutput ≠ NO_WRITE ∧
          x = Effect.collectionWrite
                (finalCollectionOutput s.collectionOutput (collectionIdentOf raw)) s.encoding)
       ∨ (s.assetsOutput ≠ NO_WRITE ∧
          ∃ im ∈ findImagesInDirectusData (items (collectionIdentOf raw)),
            x = Effect.assetRequest im.id ∨
            x = Effect.assetWrite (assetFilename s.assetsOutput (jsToStr im.filename)) "utf-8")
       ∨ x = Effect.callbackInvoked (items (collectionIdentOf raw))) := by
  cases v with
  | str raw =>
    refine ⟨raw, rfl, ?_⟩
    by_cases hco : s.collectionOutput = NO_WRITE <;>
      by_cases hao : s.assetsOutput = NO_WRITE <;>
        simp [perCollection, hco, hao, List.mem_flatMap] at h <;>
          aesop
  | null => simp [perCollection] at h
  | undefined => simp [perCollection] at h
  | bool b => simp [perCollection] at h
  | num n => simp [perCollection] at h
  | arr xs => simp [perCollection] at h
  | obj fs => simp [perCollection] at h

/-- Case analysis for membership in the whole effect trace. -/
theorem mem_runEffects_cases (s : ResolvedSettings) (cms : Cms) (x : Effect)
    (h : x ∈ runEffects s cms) :
    x = Effect.errorMissingCollection
  ∨ (∃ rp, s.restoreSchema = some rp ∧
      (x = Effect.schemaDiffRequest s.forceSchema ∨
        (s.applySchema = true ∧
          x = Effect.schemaApplyRequest
                (filterSchemaCategories (normalizeCollectionName s.collectionName)
                  cms.diffData))))
  ∨ (s.restoreSchema = none ∧
      ((∃ bp, s.backupSchema = some bp ∧
          (x = Effect.schemaSnapshotRequest ∨
           x = Effect.schemaBackupWrite bp
                 (filterSchemaCategories (normalizeCollectionName s.collectionName)
                   cms.snapshotData) "utf-8"))
       ∨ ∃ v ∈ normalizeCollectionName s.collectionName, x ∈ perCollection s cms.items v)) := by
  by_cases ht : truthyD s.collectionName = false
  · left
    simpa [runEffects, ht] using h
  · rw [runEffects, if_neg ht] at h
    cases hr : s.restoreSchema with
    | some rp =>
      rw [hr] at h
      simp only [List.mem_cons] at h
      rcases h with h | h
      · exact Or.inr (Or.inl ⟨rp, rfl, Or.inl h⟩)
      · by_cases ha : s.applySchema
        · simp only [ha, if_true, List.mem_singleton] at h
          exact Or.inr (Or.inl ⟨rp, rfl, Or.inr ⟨by simp [ha], h⟩⟩)
        · simp [ha] at h
    | none =>
      rw [hr] at h
      refine Or.inr (Or.inr ⟨rfl, ?_⟩)
      rw [List.mem_append] at h
      rcases h with h | h
      · cases hb : s.backupSchema with
        | some bp =>
          rw [hb] at h
          simp only [List.mem_cons, List.not_mem_nil, or_false] at h
          exact Or.inl ⟨bp, rfl, h⟩
        | none => rw [hb] at h; simp at h
      · rw [List.mem_flatMap] at h
        exact Or.inr h

/-- C3 counterexample: with the apply-schema flag set but no restore-schema
setting, the invocation does not fail — it runs the ordinary fetch, write
and callback, and never touches the schema-apply endpoint. -/
theorem c3_counterexample :
    runEffects { collectionName := DVal.str "Foo", applySchema := true } {}
      = [Effect.readItemsRequest "Foo" none,
         Effect.collectionWrite "Foo.json" "utf-8",
         Effect.callbackInvoked (DVal.arr [])] := by
  rfl

/-- C3 (amended): an apply-schema flag without restore-schema is silently
ignored — the trace is identical to the one with the flag cleared — and the
schema-apply endpoint is reached only when restore-schema is set and the
apply flag is set. -/
theorem c3_apply_flag_requires_restore (s : ResolvedSettings) (cms : Cms) :
    (s.restoreSchema = none →
        runEffects { s with applySchema := true } cms
          = runEffects { s with applySchema := false } cms)
  ∧ (∀ d, Effect.schemaApplyRequest d ∈ runEffects s cms →
        s.restoreSchema ≠ none ∧ s.applySchema = true) := by
  constructor
  · intro hr
    have hpc : ∀ b : Bool,
        perCollection { s with restoreSchema := none, applySchema := b } cms.items
          = perCollection s cms.items := by
      intro b
      funext v
      cases v <;> simp [perCollection]
    simp [runEffects, hr, hpc]
  · intro d h
    rcases mem_runEffects_cases s cms _ h with h1 | ⟨rp, hrp, h1 | ⟨ha, h1⟩⟩ | ⟨hr, hrest⟩
    · exact absurd h1 (by simp)
    · exact absurd h1 (by simp)
    · exact ⟨by simp [hrp], ha⟩
    · rcases hrest with ⟨bp, hb, h1 | h1⟩ | ⟨v, hv, h1⟩
      · exact absurd h1 (by simp)
      · exact absurd h1 (by simp)
      · rcases mem_perCollection_cases s cms.items v _ h1 with
          ⟨raw, hv2, h2 | ⟨hco, h2⟩ | ⟨hao, im, him, h2 | h2⟩ | h2⟩ <;> simp_all

/-- Witness for the amended C3 theorem: with restore and apply both set, the
schema-apply request is in the trace and the theorem reports both flags. -/
theorem c3_apply_flag_requires_restore_witness :
    ({ collectionName := DVal.str "Foo", restoreSchema := some "schema.json",
       applySchema := true } : ResolvedSettings).restoreSchema ≠ none
    ∧ ({ collectionName := DVal.str "Foo", restoreSchema := some "schema.json",
         applySchema := true } : ResolvedSettings).applySchema = true := by
  refine (c3_apply_flag_requires_restore _ {}).2
    (filterSchemaCategories [DVal.str "Foo"] ⟨[], [], []⟩) ?_
  have hrun : runEffects
      { collectionName := DVal.str "Foo", restoreSchema := some "schema.json",
        applySchema := true } {}
      = [Effect.schemaDiffRequest false,
         Effect.schemaApplyRequest (filterSchemaCategories [DVal.str "Foo"] ⟨[], [], []⟩)] := rfl
  rw [hrun]
  exact List.Mem.tail _ (List.Mem.head _)

/-- C4 counterexample: with backup-schema set (and restore-schema unset),
the snapshot is taken and written, and then the normal per-collection fetch
still runs — backup is not mutually exclusive with the fetch. -/
theorem c4_counterexample :
    runEffects { collectionName := DVal.str "Foo", backupSchema := some "schema.json" } {}
      = [Effect.schemaSnapshotRequest,
         Effect.schemaBackupWrite "schema.json" ⟨[], [], []⟩ "utf-8",
         Effect.readItemsRequest "Foo" none,
         Effect.collectionWrite "Foo.json" "utf-8",
         Effect.callbackInvoked (DVal.arr [])] := by
  rfl

/-- C4 (amended): when restore-schema is set, no collection items are
fetched or written, no callback runs, and the backup path is also skipped —
restore takes precedence over backup when both are set.  (Backup alone,
however, does not suppress the fetch loop.) -/
theorem c4_restore_overrides_fetch_and_backup (s : ResolvedSettings) (cms : Cms)
    (h : s.restoreSchema ≠ none) :
    (∀ c f, Effect.readItemsRequest c f ∉ runEffects s cms)
  ∧ (∀ p e, Effect.collectionWrite p e ∉ runEffects s cms)
  ∧ (∀ p e, Effect.assetWrite p e ∉ runEffects s cms)
  ∧ (∀ d, Effect.callbackInvoked d ∉ runEffects s cms)
  ∧ Effect.schemaSnapshotRequest ∉ runEffects s cms
  ∧ (∀ p d e, Effect.schemaBackupWrite p d e ∉ runEffects s cms) := by
  have noRestoreNone : ∀ x : Effect, x ∈ runEffects s cms →
      x = Effect.errorMissingCollection
      ∨ (∃ rp, s.restoreSchema = some rp ∧
          (x = Effect.schemaDiffRequest s.forceSchema ∨
            (s.applySchema = true ∧
              x = Effect.schemaApplyRequest
                    (filterSchemaCategories (normalizeCollectionName s.collectionName)
                      cms.diffData)))) := by
    intro x hx
    rcases mem_runEffects_cases s cms x hx with h1 | h1 | ⟨hr, _⟩
    · exact Or.inl h1
    · exact Or.inr h1
    · exact absurd hr h
  refine ⟨fun c f hx => ?_, fun p e hx => ?_, fun p e hx => ?_, fun d hx => ?_,
    fun hx => ?_, fun p d e hx => ?_⟩ <;>
    rcases noRestoreNone _ hx with h1 | ⟨rp, hrp, h1 | ⟨ha, h1⟩⟩ <;> simp_all

/-- Witness for the amended C4 theorem with restore and backup both set. -/
theorem c4_restore_overrides_fetch_and_backup_witness :
    Effect.readItemsRequest "Foo" none ∉
      runEffects { collectionName := DVal.str "Foo",
                   restoreSchema := some "schema.json",
                   backupSchema := some "backup.json" } {}
    ∧ Effect.schemaSnapshotRequest ∉
      runEffects { collectionName := DVal.str "Foo",
                   restoreSchema := some "schema.json",
                   backupSchema := some "backup.json" } {} := by
  have h := c4_restore_overrides_fetch_and_backup
    { collectionName := DVal.str "Foo",
      restoreSchema := some "schema.json",
      backupSchema := some "backup.json" } {} (by simp)
  exact ⟨h.1 "Foo" none, h.2.2.2.2.1⟩

/-- C9: in every trace, the schema-backup file and every asset file are
written with the fixed encoding `utf-8`, while the per-collection JSON file
is written with the configured encoding. -/
theorem c9_fixed_write_encodings (s : ResolvedSettings) (cms : Cms) :
    (∀ p d e, Effect.schemaBackupWrite p d e ∈ runEffects s cms → e = "utf-8")
  ∧ (∀ p e, Effect.assetWrite p e ∈ runEffects s cms → e = "utf-8")
  ∧ (∀ p e, Effect.collectionWrite p e ∈ runEffects s cms → e = s.encoding) := by
  refine ⟨fun p d e h => ?_, fun p e h => ?_, fun p e h => ?_⟩ <;>
    rcases mem_runEffects_cases s cms _ h with
        h1 | ⟨rp, hrp, h1 | ⟨ha, h1⟩⟩ | ⟨hr, ⟨bp, hb, h1 | h1⟩ | ⟨v, hv, h1⟩⟩ <;>
      first
        | simp_all
        | (rcases mem_perCollection_cases s cms.items v _ h1 with
            ⟨raw, hv2, h2 | ⟨hco, h2⟩ | ⟨hao, im, him, h2 | h2⟩ | h2⟩ <;> simp_all)

/-- Witness for C9: a trace containing a schema-backup write, an asset write
and a collection write, with a configured non-default encoding. -/
theorem c9_fixed_write_encodings_witness :
    ("utf-8" : String) = "utf-8"
    ∧ ("latin1" : String) =
        ({ collectionName := DVal.str "Foo",
           backupSchema := some "backup.json",
           encoding := "latin1" } : ResolvedSettings).encoding := by
  have himg : findImagesInDirectusData
      (DVal.obj [("id", DVal.str "5"), ("filename_download", DVal.str "f.png")])
      = [{ id := DVal.str "5", filename := DVal.str "f.png" }] := by
    simp [findImagesInDirectusData, findImagesFields, selfImage, hasKey, lookupField]
  have hrun : runEffects
      { collectionName := DVal.str "Foo",
        backupSchema := some "backup.json",
        encoding := "latin1" }
      { items := fun _ =>
          DVal.obj [("id", DVal.str "5"), ("filename_download", DVal.str "f.png")] }
      = [Effect.schemaSnapshotRequest,
         Effect.schemaBackupWrite "backup.json" ⟨[], [], []⟩ "utf-8",
         Effect.readItemsRequest "Foo" none,
         Effect.collectionWrite "Foo.json" "latin1",
         Effect.assetRequest (DVal.str "5"),
         Effect.assetWrite "f.png" "utf-8",
         Effect.callbackInvoked
           (DVal.obj [("id", DVal.str "5"), ("filename_download", DVal.str "f.png")])] := by
    have e0 : truthyD (DVal.str "Foo") = true := by decide
    have e1 : collectionIdentOf "Foo" = "Foo" := by decide
    have e2 : collectionFieldsOf "Foo" = none := by decide
    have e3 : finalCollectionOutput "\x7b\x7bcollectionName\x7d\x7d.json" "Foo" = "Foo.json" := by
      decide
    have e4 : assetFilename "\x7b\x7bfilename\x7d\x7d" "f.png" = "f.png" := by decide
    have e5 : ("\x7b\x7bcollectionName\x7d\x7d.json" : String) ≠ NO_WRITE := by decide
    have e6 : ("\x7b\x7bfilename\x7d\x7d" : String) ≠ NO_WRITE := by decide
    have e7 : filterSchemaCategories [DVal.str "Foo"] (⟨[], [], []⟩ : SchemaDiffData)
        = ⟨[], [], []⟩ := by decide
    simp [runEffects, normalizeCollectionName, perCollection, e0, e1, e2, e3, e4, e5, e6, e7,
      himg, jsToStr]
  have h := c9_fixed_write_encodings
    { collectionName := DVal.str "Foo",
      backupSchema := some "backup.json",
      encoding := "latin1" }
    { items := fun _ =>
        DVal.obj [("id", DVal.str "5"), ("filename_download", DVal.str "f.png")] }
  refine ⟨h.2.1 "f.png" "utf-8" ?_, (h.2.2 "Foo.json" "latin1" ?_).symm⟩
  · rw [hrun]
    exact List.Mem.tail _ (List.Mem.tail _ (List.Mem.tail _ (List.Mem.tail _
      (List.Mem.tail _ (List.Mem.head _)))))
  · rw [hrun]
    exact List.Mem.tail _ (List.Mem.tail _ (List.Mem.tail _ (List.Mem.head _)))

/-! ## The retrying wrapper (C7) -/

/-- C7: when the underlying call fails on both the first attempt and the
retry, the wrapper does not reject after the second attempt: the retry's
rejection is re-caught by the outer `try/catch`, which logs another retry
notice and fires a third underlying call whose promise is discarded, and the
promise handed to the caller never settles. -/
theorem c7_double_failure_spawns_third_attempt :
    (directusRequest false (fun _ : Nat => false) (fun _ => ReqOutcome.fail 0)
        : ReqRun Nat Nat).settlement = Settlement.pending
    ∧ (directusRequest false (fun _ : Nat => false) (fun _ => ReqOutcome.fail 0)
        : ReqRun Nat Nat).attempts = 3
    ∧ (directusRequest false (fun _ : Nat => false) (fun _ => ReqOutcome.fail 0)
        : ReqRun Nat Nat).settlement ≠ Settlement.rejected 0 := by
  exact ⟨rfl, rfl, by decide⟩

/-- A call that fails once and then succeeds resolves with the retry's value
after two underlying calls and exactly one retry notice (the part of the
retry behaviour that works as documented). -/
theorem directusRequest_fail_then_ok (v e : Nat) :
    (directusRequest false (fun _ : Nat => false)
        (fun n => if n = 0 then ReqOutcome.fail e else ReqOutcome.ok v) : ReqRun Nat Nat)
      = { settlement := Settlement.resolved v, attempts := 2, retryNotices := 1 } := by
  rfl

/-- With `expectValue` set, a falsy value on both attempts makes the wrapper
reject with `Error("tryAgain set to true")` after the retry, rather than
resolve the empty value (the part of the empty-result behaviour that works
as documented). -/
theorem directusRequest_empty_twice_rejects :
    (directusRequest true (fun v : Nat => v == 0) (fun _ => ReqOutcome.ok 0)
        : ReqRun Nat Nat)
      = { settlement := Settlement.rejectedTryAgain, attempts := 2, retryNotices := 1 } := by
  rfl

/-! ## Settings precedence and defaults (C8) -/

/-- C8: for every setting field — cmsUrl, staticToken, collectionName,
collectionOutput, assetsOutput, encoding, configFilename, prettify,
backupSchema and restoreSchema — when the explicit parameter, the
config-file value and the environment variable carry distinct non-empty
(for prettify: non-sentinel) values, resolution picks the explicit one; and
when every source is unset, resolution yields the documented built-in
default exactly. -/
theorem c8_settings_precedence :
    (∀ (p : CallParams) (config : ConfigFile) (env : EnvVars) (a b c : String),
       a ≠ "" → b ≠ "" → c ≠ "" → a ≠ b → a ≠ c → b ≠ c →
       (resolveSettings { p with cmsUrl := a } { config with cmsUrl := some b }
           { env with CMS_URL := some c }).cmsUrl = some a)
  ∧ (∀ (p : CallParams) (config : ConfigFile) (env : EnvVars) (a b c : String),
       a ≠ "" → b ≠ "" → c ≠ "" → a ≠ b → a ≠ c → b ≠ c →
       (resolveSettings { p with staticToken := a } { config with staticToken := some b }
           { env with STATIC_TOKEN := some c }).staticToken = some a)
  ∧ (∀ (p : CallParams) (config : ConfigFile) (env : EnvVars) (a b c : String),
       a ≠ "" → b ≠ "" → c ≠ "" → a ≠ b → a ≠ c → b ≠ c →
       (resolveSettings { p with collectionName := DVal.str a }
           { config with collectionName := some (DVal.str b) }
           { env with COLLECTION_NAME := some c }).collectionName = DVal.str a)
  ∧ (∀ (p : CallParams) (config : ConfigFile) (env : EnvVars) (a b c : String),
       a ≠ "" → b ≠ "" → c ≠ "" → a ≠ b → a ≠ c → b ≠ c →
       (resolveSettings { p with collectionOutput := a }
           { config with collectionOutput := some b }
           { env with OUTPUT_FILENAME := some c }).collectionOutput = a)
  ∧ (∀ (p : CallParams) (config : ConfigFile) (env : EnvVars) (a b c : String),
       a ≠ "" → b ≠ "" → c ≠ "" → a ≠ b → a ≠ c → b ≠ c →
       (resolveSettings { p with assetsOutput := a } { config with assetsOutput := some b }
           { env with ASSETS_OUTPUT := some c }).assetsOutput = a)
  ∧ (∀ (p : CallParams) (config : ConfigFile) (env : EnvVars) (a b c : String),
       a ≠ "" → b ≠ "" → c ≠ "" → a ≠ b → a ≠ c → b ≠ c →
       (resolveSettings { p with encoding := a } { config with encoding := some b }
           { env with ENCODING := some c }).encoding = a)
  ∧ (∀ (p : CallParams) (config : ConfigFile) (env : EnvVars) (a c : String),
       a ≠ "" → c ≠ "" → a ≠ c →
       (resolveSettings { p with configFilename := a }
           config { env with CONFIG_FILENAME := some c }).configFilename = a)
  ∧ (∀ (p : CallParams) (config : ConfigFile) (env : EnvVars) (n : Int) (b : JSVal)
       (c : String), n ≠ -1 →
       (resolveSettings { p with prettify := JSVal.num n } { config with prettify := some b }
           { env with PRETTIFY := some c }).prettify = JSVal.num n)
  ∧ (∀ (p : CallParams) (config : ConfigFile) (env : EnvVars) (a b c : String),
       a ≠ "" → b ≠ "" → c ≠ "" → a ≠ b → a ≠ c → b ≠ c →
       (resolveSettings { p with backupSchema := a } { config with backupSchema := some b }
           { env with BACKUP_SCHEMA := some c }).backupSchema = some a)
  ∧ (∀ (p : CallParams) (config : ConfigFile) (env : EnvVars) (a b c : String),
       a ≠ "" → b ≠ "" → c ≠ "" → a ≠ b → a ≠ c → b ≠ c →
       (resolveSettings { p with restoreSchema := a } { config with restoreSchema := some b }
           { env with RESTORE_SCHEMA := some c }).restoreSchema = some a)
  ∧ (resolveSettings {} {} {}).collectionOutput = "\x7b\x7bcollectionName\x7d\x7d.json"
  ∧ (resolveSettings {} {} {}).assetsOutput = "\x7b\x7bfilename\x7d\x7d"
  ∧ (resolveSettings {} {} {}).encoding = "utf-8"
  ∧ (resolveSettings {} {} {}).configFilename = ".directus.json" := by
  refine ⟨?_, ?_, ?_, ?_, ?_, ?_, ?_, ?_, ?_, ?_, by decide, by decide, by decide, by decide⟩
  · intro p config env a b c ha _ _ _ _ _
    simp [resolveSettings, firstSet, ha]
  · intro p config env a b c ha _ _ _ _ _
    simp [resolveSettings, firstSet, ha]
  · intro p config env a b c ha _ _ _ _ _
    simp [resolveSettings, jsOrD, truthyD, ha]
  · intro p config env a b c ha _ _ _ _ _
    simp [resolveSettings, firstSetD, firstSet, ha]
  · intro p config env a b c ha _ _ _ _ _
    simp [resolveSettings, firstSetD, firstSet, ha]
  · intro p config env a b c ha _ _ _ _ _
    simp [resolveSettings, firstSetD, firstSet, ha]
  · intro p config env a c ha _ _
    simp [resolveSettings, firstSetD, firstSet, ha]
  · intro p config env n b c hn
    by_cases hn0 : n = 0
    · subst hn0
      simp [resolveSettings, resolvePrettify, _returnFirstBooleanOrNumber, prettifyFinal,
        truthyJS, envJS]
    · simp [resolveSettings, resolvePrettify, _returnFirstBooleanOrNumber, prettifyFinal,
        truthyJS, envJS, hn, hn0]
  · intro p config env a b c ha _ _ _ _ _
    simp [resolveSettings, firstSet, ha]
  · intro p config env a b c ha _ _ _ _ _
    simp [resolveSettings, firstSet, ha]

/-- Witness for C8 at three distinct non-empty values per source, covering a
string field, the collection-name field, the encoding, the prettify width
and a schema path. -/
theorem c8_settings_precedence_witness :
    (resolveSettings { ({} : CallParams) with cmsUrl := "https://a.example" }
        { ({} : ConfigFile) with cmsUrl := some "https://b.example" }
        { ({} : EnvVars) with CMS_URL := some "https://c.example" }).cmsUrl
      = some "https://a.example"
    ∧ (resolveSettings { ({} : CallParams) with collectionName := DVal.str "Posts" }
        { ({} : ConfigFile) with collectionName := some (DVal.str "Pages") }
        { ({} : EnvVars) with COLLECTION_NAME := some "Media" }).collectionName
      = DVal.str "Posts"
    ∧ (resolveSettings { ({} : CallParams) with encoding := "ascii" }
        { ({} : ConfigFile) with encoding := some "latin1" }
        { ({} : EnvVars) with ENCODING := some "utf-16" }).encoding = "ascii"
    ∧ (resolveSettings { ({} : CallParams) with prettify := JSVal.num 2 }
        { ({} : ConfigFile) with prettify := some (JSVal.num 8) }
        { ({} : EnvVars) with PRETTIFY := some "7" }).prettify = JSVal.num 2
    ∧ (resolveSettings { ({} : CallParams) with backupSchema := "a.json" }
        { ({} : ConfigFile) with backupSchema := some "b.json" }
        { ({} : EnvVars) with BACKUP_SCHEMA := some "c.json" }).backupSchema
      = some "a.json" := by
  exact ⟨c8_settings_precedence.1 {} {} {} "https://a.example" "https://b.example"
           "https://c.example" (by decide) (by decide) (by decide) (by decide) (by decide)
           (by decide),
         c8_settings_precedence.2.2.1 {} {} {} "Posts" "Pages" "Media"
           (by decide) (by decide) (by decide) (by decide) (by decide) (by decide),
         c8_settings_precedence.2.2.2.2.2.1 {} {} {} "ascii" "latin1" "utf-16"
           (by decide) (by decide) (by decide) (by decide) (by decide) (by decide),
         c8_settings_precedence.2.2.2.2.2.2.2.1 {} {} {} 2 (JSVal.num 8) "7" (by decide),
         c8_settings_precedence.2.2.2.2.2.2.2.2.1 {} {} {} "a.json" "b.json" "c.json"
           (by decide) (by decide) (by decide) (by decide) (by decide) (by decide)⟩

/-! ## Asset discovery never enters nested arrays (C10) -/

/-- C10: asset discovery recurses only into plain objects: whatever an
array-valued field of a fetched object contains — even objects carrying both
`id` and `filename_download` — nothing inside it is ever discovered; by
contrast, an object reached through the top-level array itself is scanned
and discovered. -/
theorem c10_nested_arrays_not_scanned :
    (∀ xs : List DVal,
        findImagesInDirectusData
          (DVal.obj [("title", DVal.str "post"), ("gallery", DVal.arr xs)]) = [])
    ∧ findImagesInDirectusData
        (DVal.arr [DVal.obj [("id", DVal.str "a1"), ("filename_download", DVal.str "f.png")]])
        = [{ id := DVal.str "a1", filename := DVal.str "f.png" }] := by
  constructor
  · intro xs
    simp [findImagesInDirectusData, findImagesFields, selfImage, hasKey, lookupField]
  · simp [findImagesInDirectusData, findImagesElems, findImagesFields, selfImage, hasKey,
      lookupField]

end DirectusToData
